import Mathlib

/-!
Verification of the icloud-to-slack pipeline (`src/main.py`).

The development shallowly embeds the program: the JSON state store
(`load_seen_photos` / `save_seen_photos`), the tiered delivery dispatcher
(`post_to_slack`) and the orchestrator (`main`).  External collaborators
(the `requests` transport, the Playwright scraper, the PIL EXIF reader)
are modelled as explicit outcome parameters; the standard-library `json`
codec is modelled by an executable decoder/encoder over a JSON value type.
Side effects that the claims talk about (state-file reads and writes,
temporary-file creation and deletion, outbound HTTP calls) are recorded in
an explicit operation trace.
-/

/-- JSON values as produced by `json.loads`.  Numbers keep their source
lexeme: no claim depends on numeric equality across distinct lexemes
(Python's cross-type `1 == 1.0 == True` equalities are not modelled; the
state file holds URL strings only). -/
inductive J where
  | null : J
  | bool (b : Bool) : J
  | num (lexeme : String) : J
  | str (s : String) : J
  | arr (xs : List J) : J
  | obj (fields : List (String × J)) : J

/-- Outcome of one external HTTP call: either a transport-level exception
(`raise`) or a response with a status code and a decoded `ok` field (the
`ok` field is meaningful only for the Slack `files.upload` response). -/
inductive NetResult where
  | raise : NetResult
  | resp (status : Nat) (ok : Bool) : NetResult
deriving DecidableEq

/-- Observable side effects of a run, in program order. -/
inductive Op where
  | readStateFile : Op
  | scrapeAlbum : Op
  | httpGetImage (url : String) : Op
  | createTempFile : Op
  | deleteTempFile : Op
  | httpPostUpload : Op
  | httpPostWebhook (text : String) : Op
  | writeStateFile (contents : List String) : Op
deriving DecidableEq

/-- The three environment settings read at startup (`ALBUM_URL`,
`SLACK_WEBHOOK`, `SLACK_API_TOKEN`); `none` models an unset variable. -/
structure Config where
  album_url : Option String
  slack_webhook : Option String
  slack_api_token : Option String

/-- Python truthiness of an environment value: unset or empty is falsy. -/
def truthy : Option String → Bool
  | none => false
  | some s => !(s = "")

/-- Per-photo outcomes of the external calls `post_to_slack` can make:
the image download, the best-effort EXIF extraction (`none` means the
extraction raised and was swallowed; otherwise the optional
`DateTimeOriginal` and the optional `Make`/`Model` pair), the
`files.upload` POST and the webhook POST. -/
structure CallEnv where
  download : NetResult
  exif : Option (Option String × Option (String × String))
  upload : NetResult
  webhookPost : NetResult

/-- Whitespace characters stripped by `str.strip()` and skipped by the
JSON decoder. -/
def isWsChar (c : Char) : Bool :=
  c = ' ' || c = '\t' || c = '\n' || c = '\r' || c = '\x0b' || c = '\x0c'

/-- Drop leading JSON/strip whitespace. -/
def skipWs (cs : List Char) : List Char := cs.dropWhile isWsChar

/-- Python's `str.strip()`: drop leading and trailing whitespace. -/
def pyStrip (s : String) : String :=
  String.mk (((s.data.dropWhile isWsChar).reverse.dropWhile isWsChar).reverse)

/-- Value of a hexadecimal digit, `none` for a non-hex character. -/
def hexDigitVal (c : Char) : Option Nat :=
  if '0' ≤ c ∧ c ≤ '9' then some (c.toNat - 48)
  else if 'a' ≤ c ∧ c ≤ 'f' then some (c.toNat - 87)
  else if 'A' ≤ c ∧ c ≤ 'F' then some (c.toNat - 55)
  else none

/-- Modelled from the spec: body of a JSON string literal after the
opening quote, as decoded by the standard-library `json.loads` (a
collaborator not under `src/`).  Returns the decoded characters and the
input remaining after the closing quote.  Lone `\uXXXX` surrogate halves
(which CPython would pair or keep as surrogates) are out of scope. -/
def parseStrBody : List Char → Option (List Char × List Char)
  | [] => none
  | c :: rest =>
    if c = '"' then some ([], rest)
    else if c = '\\' then
      match rest with
      | [] => none
      | e :: rest2 =>
        if e = '"' ∨ e = '\\' ∨ e = '/' then
          (parseStrBody rest2).map (fun p => (e :: p.1, p.2))
        else if e = 'n' then (parseStrBody rest2).map (fun p => ('\n' :: p.1, p.2))
        else if e = 't' then (parseStrBody rest2).map (fun p => ('\t' :: p.1, p.2))
        else if e = 'r' then (parseStrBody rest2).map (fun p => ('\r' :: p.1, p.2))
        else if e = 'b' then (parseStrBody rest2).map (fun p => ('\x08' :: p.1, p.2))
        else if e = 'f' then (parseStrBody rest2).map (fun p => ('\x0c' :: p.1, p.2))
        else if e = 'u' then
          match rest2 with
          | h1 :: h2 :: h3 :: h4 :: rest3 =>
            match hexDigitVal h1, hexDigitVal h2, hexDigitVal h3, hexDigitVal h4 with
            | some a, some b, some c2, some d =>
              (parseStrBody rest3).map
                (fun p => (Char.ofNat (4096 * a + 256 * b + 16 * c2 + d) :: p.1, p.2))
            | _, _, _, _ => none
          | _ => none
        else none
    else if c.toNat < 0x20 then none
    else (parseStrBody rest).map (fun p => (c :: p.1, p.2))

/-- Integer part of a JSON number (no leading zeros except a lone `0`). -/
def parseIntPart : List Char → Option (List Char × List Char)
  | [] => none
  | c :: t =>
    if c = '0' then some (['0'], t)
    else if c.isDigit then
      some (c :: t.takeWhile Char.isDigit, t.dropWhile Char.isDigit)
    else none

/-- Optional fractional part of a JSON number. -/
def parseFrac : List Char → Option (List Char × List Char)
  | '.' :: t =>
    match t.takeWhile Char.isDigit with
    | [] => none
    | ds => some ('.' :: ds, t.dropWhile Char.isDigit)
  | cs => some ([], cs)

/-- Optional exponent part of a JSON number. -/
def parseExp : List Char → Option (List Char × List Char)
  | [] => some ([], [])
  | e :: t =>
    if e = 'e' ∨ e = 'E' then
      let sgt : List Char × List Char :=
        match t with
        | s :: t2 => if s = '+' ∨ s = '-' then ([s], t2) else ([], t)
        | [] => ([], [])
      match sgt.2.takeWhile Char.isDigit with
      | [] => none
      | ds => some (e :: sgt.1 ++ ds, sgt.2.dropWhile Char.isDigit)
    else some ([], e :: t)

/-- A full JSON number lexeme. -/
def parseNumberLex (cs : List Char) : Option (List Char × List Char) :=
  let st : List Char × List Char :=
    match cs with
    | '-' :: t => (['-'], t)
    | _ => ([], cs)
  match parseIntPart st.2 with
  | none => none
  | some (ip, r1) =>
    match parseFrac r1 with
    | none => none
    | some (fp, r2) =>
      match parseExp r2 with
      | none => none
      | some (ep, r3) => some (st.1 ++ ip ++ fp ++ ep, r3)

/-- Comma-separated JSON array elements up to the closing bracket, with
element parsing delegated to `pv`.  Fuel bounds the element count. -/
def parseElemsAux (pv : List Char → Option (J × List Char)) :
    Nat → List Char → Option (List J × List Char)
  | 0, _ => none
  | f + 1, cs =>
    match pv cs with
    | none => none
    | some (v, r) =>
      let r2 := skipWs r
      if r2.head? = some ',' then
        match parseElemsAux pv f r2.tail with
        | none => none
        | some (vs, rr) => some (v :: vs, rr)
      else if r2.head? = some ']' then some ([v], r2.tail)
      else none

/-- Comma-separated JSON object members up to the closing brace. -/
def parseMembersAux (pv : List Char → Option (J × List Char)) :
    Nat → List Char → Option (List (String × J) × List Char)
  | 0, _ => none
  | f + 1, cs =>
    let r := skipWs cs
    if r.head? = some '"' then
      match parseStrBody r.tail with
      | none => none
      | some (key, r1) =>
        let r2 := skipWs r1
        if r2.head? = some ':' then
          match pv r2.tail with
          | none => none
          | some (v, r3) =>
            let r4 := skipWs r3
            if r4.head? = some ',' then
              match parseMembersAux pv f r4.tail with
              | none => none
              | some (ms, rr) => some ((String.mk key, v) :: ms, rr)
            else if r4.head? = some '}' then some ([(String.mk key, v)], r4.tail)
            else none
        else none
    else none

/-- Modelled from the spec: one JSON value, as decoded by the
standard-library `json.loads` (a collaborator not under `src/`).  Fuel
bounds nesting depth and element counts; callers pass the input length,
which always suffices. -/
def parseVal : Nat → List Char → Option (J × List Char)
  | 0, _ => none
  | f + 1, cs =>
    match skipWs cs with
    | [] => none
    | c :: rest =>
      if c = '"' then
        (parseStrBody rest).map (fun p => (J.str (String.mk p.1), p.2))
      else if c = '[' then
        let r := skipWs rest
        if r.head? = some ']' then some (J.arr [], r.tail)
        else
          match parseElemsAux (parseVal f) f r with
          | none => none
          | some (vs, rr) => some (J.arr vs, rr)
      else if c = '{' then
        let r := skipWs rest
        if r.head? = some '}' then some (J.obj [], r.tail)
        else
          match parseMembersAux (parseVal f) f r with
          | none => none
          | some (ms, rr) => some (J.obj ms, rr)
      else if c = 't' then
        match rest with
        | 'r' :: 'u' :: 'e' :: r2 => some (J.bool true, r2)
        | _ => none
      else if c = 'f' then
        match rest with
        | 'a' :: 'l' :: 's' :: 'e' :: r2 => some (J.bool false, r2)
        | _ => none
      else if c = 'n' then
        match rest with
        | 'u' :: 'l' :: 'l' :: r2 => some (J.null, r2)
        | _ => none
      else
        match parseNumberLex (c :: rest) with
        | none => none
        | some (lex, r2) => some (J.num (String.mk lex), r2)

/-- Modelled from the spec: `json.loads` on a whole document — one value,
optionally surrounded by whitespace; `none` is a `json.JSONDecodeError`. -/
def jsonLoads (s : String) : Option J :=
  match parseVal (s.data.length + 1) s.data with
  | none => none
  | some (v, rest) => if (skipWs rest).isEmpty then some v else none

/-- Modelled from the spec: `json.dump`'s escaping of one character of an
ASCII string (the state file holds URL strings; control and non-ASCII
characters, which CPython would escape as `\uXXXX`, are outside the
well-formedness predicate used below). -/
def escapeChar (c : Char) : List Char :=
  if c = '"' ∨ c = '\\' then ['\\', c] else [c]

/-- A JSON string literal for `s`, as emitted by `json.dump`. -/
def dumpStringChars (s : String) : List Char :=
  '"' :: (s.data.map escapeChar).flatten ++ ['"']

/-- The comma-separated items of a dumped list, using `json.dump`'s
default `", "` separator. -/
def dumpItems : List String → List Char
  | [] => []
  | [a] => dumpStringChars a
  | a :: b :: t => dumpStringChars a ++ ',' :: ' ' :: dumpItems (b :: t)

/-- Modelled from the spec: `json.dump` of a list of strings (the only
shape the program ever writes). -/
def jsonDumpList (l : List String) : String :=
  String.mk ('[' :: dumpItems l ++ [']'])

/-- Identifiers whose serialization needs no `\uXXXX` escapes: printable
ASCII.  CDN photo URLs satisfy this. -/
def wellFormedId (s : String) : Bool :=
  s.data.all (fun c => 0x20 ≤ c.toNat && c.toNat ≤ 0x7e)

/-- Hashability of a decoded JSON value: Python `set()` accepts scalars
and strings and raises `TypeError` on lists and dicts. -/
def hashableJ : J → Bool
  | J.arr _ => false
  | J.obj _ => false
  | _ => true

/-- Python `==` on the hashable values a decoded state file can put into
a set.  Values of distinct constructors compare unequal (Python's
cross-type numeric equalities such as `True == 1` are not modelled; the
state file holds URL strings only). -/
def beqAtom : J → J → Bool
  | J.null, J.null => true
  | J.bool a, J.bool b => a == b
  | J.num a, J.num b => a == b
  | J.str a, J.str b => a == b
  | _, _ => false

/-- Insert into a Python set represented as a duplicate-free list. -/
def pySetInsert (acc : List J) (x : J) : List J :=
  if acc.any (fun j => beqAtom j x) then acc else acc ++ [x]

/-- Python `set(iterable)` over already-checked hashable values. -/
def pySetOfList (xs : List J) : List J := xs.foldl pySetInsert []

/-- Python `set(v)` on a decoded JSON value: a list yields the set of its
elements if all are hashable, a string yields its one-character
substrings, a dict yields its keys, and anything else raises
`TypeError` (modelled as `Except.error`). -/
def pySet : J → Except Unit (List J)
  | J.arr xs => if xs.all hashableJ then Except.ok (pySetOfList xs) else Except.error ()
  | J.str s => Except.ok (pySetOfList (s.data.map (fun c => J.str (String.mk [c]))))
  | J.obj fs => Except.ok (pySetOfList (fs.map (fun p => J.str p.1)))
  | _ => Except.error ()

/-- `load_seen_photos` (src/main.py lines 26-37).  The file state is
`none` when `seen_photos.json` does not exist, otherwise its raw text.
The function strips the content, maps empty content to the empty set,
maps a `json.JSONDecodeError` to the empty set with a warning, and
otherwise builds `set(json.loads(content))` — whose `TypeError` on
non-iterable values is NOT caught and escapes (`Except.error`). -/
def load_seen_photos (file : Option String) : Except Unit (List J) :=
  match file with
  | none => Except.ok []
  | some raw =>
    let content := pyStrip raw
    if content = "" then Except.ok []
    else
      match jsonLoads content with
      | none => Except.ok []
      | some v => pySet v

/-- `save_seen_photos` (src/main.py lines 40-42): the new full contents
of the state file, `json.dump(list(photo_urls), f)`.  The argument is the
iteration order of the Python set being saved. -/
def save_seen_photos (photo_urls : List String) : String :=
  jsonDumpList photo_urls

/-- The metadata text assembled from EXIF data (src/main.py lines 65-88):
empty when extraction raised, otherwise a `Taken:` line when
`DateTimeOriginal` was found and a `Device:` line when both `Make` and
`Model` were found. -/
def metadataTextOf (exif : Option (Option String × Option (String × String))) : String :=
  match exif with
  | none => ""
  | some (dto, dev) =>
    (match dto with
     | some d => "📅 Taken: " ++ d ++ "\n"
     | none => "") ++
    (match dev with
     | some md => "📱 Device: " ++ md.1 ++ " " ++ md.2 ++ "\n"
     | none => "")

/-- The fixed header of the tier-2 webhook message (src/main.py line 133). -/
def webhookHeader : String := "📸 *New photo added to the shared album!*"

/-- Tier 2 of `post_to_slack` (src/main.py lines 130-154): the webhook
fallback.  `metadataOpt` is `some` exactly when `metadata_text` is bound
in `locals()` at this point (tier 1 reached line 66).  A falsy
`SLACK_WEBHOOK` makes `requests.post` raise before any HTTP exchange;
a transport-level `raise` of the POST itself is uncaught. -/
def webhookFallback (cfg : Config) (call : CallEnv) (metadataOpt : Option String)
    (opsAcc : List Op) : Except Unit Bool × List Op :=
  let messageText :=
    webhookHeader ++
      (match metadataOpt with
       | some m => if m = "" then "" else "\n" ++ m
       | none => "")
  if truthy cfg.slack_webhook then
    match call.webhookPost with
    | NetResult.raise => (Except.error (), opsAcc ++ [Op.httpPostWebhook messageText])
    | NetResult.resp st _ =>
      (Except.ok (if st = 200 then true else false), opsAcc ++ [Op.httpPostWebhook messageText])
  else (Except.error (), opsAcc)

/-- `post_to_slack` (src/main.py lines 45-154).  Returns the delivery
outcome (`Except.error` models an uncaught exception escaping the
function) together with the trace of side effects. -/
def post_to_slack (cfg : Config) (call : CallEnv) (image_url : String) :
    Except Unit Bool × List Op :=
  let filename := (((image_url.splitOn "?").headD "").splitOn "/").getLastD ""
  let _ := filename
  if truthy cfg.slack_api_token then
    match call.download with
    | NetResult.raise =>
      -- requests.get raised; caught at line 126, metadata_text unbound
      webhookFallback cfg call none [Op.httpGetImage image_url]
    | NetResult.resp status _ =>
      if status ≠ 200 then
        -- line 56: early return False, no fallback
        (Except.ok false, [Op.httpGetImage image_url])
      else
        let metadataText := metadataTextOf call.exif
        match call.upload with
        | NetResult.raise =>
          -- upload raised before the unlink at line 115: temp file leaks
          webhookFallback cfg call (some metadataText)
            [Op.httpGetImage image_url, Op.createTempFile, Op.httpPostUpload]
        | NetResult.resp ust uok =>
          -- line 115 unlinks before the status check
          let ops := [Op.httpGetImage image_url, Op.createTempFile,
            Op.httpPostUpload, Op.deleteTempFile]
          if ust = 200 ∧ uok then (Except.ok true, ops)
          else webhookFallback cfg call (some metadataText) ops
  else webhookFallback cfg call none []

/-- Membership of a string in the loaded seen set, by Python `in`. -/
def seenMem (seenL : List J) (s : String) : Bool :=
  seenL.any (fun j => beqAtom j (J.str s))

/-- Python `set()` over strings (`set(run_scraper())`, src/main.py line
208), represented as the duplicate-free list of first occurrences. -/
def pyStrSet (l : List String) : List String :=
  l.foldl (fun acc x => if x ∈ acc then acc else acc ++ [x]) []

/-- Lexicographic comparison of character lists by code point, the order
Python's `sorted` uses on strings. -/
def lexLeChars : List Char → List Char → Bool
  | [], _ => true
  | _ :: _, [] => false
  | a :: as, b :: bs =>
    if a.toNat < b.toNat then true
    else if b.toNat < a.toNat then false
    else lexLeChars as bs

/-- Lexicographic order on identifier strings. -/
def strLe (a b : String) : Prop := lexLeChars a.data b.data = true

instance : DecidableRel strLe := fun a b => by
  unfold strLe
  infer_instance

/-- The new photos of a run: `sorted(current - seen)` (src/main.py lines
209 and 214) — the snapshot elements not in the seen set, in ascending
lexicographic order. -/
def newPhotosList (seenL : List J) (current : List String) : List String :=
  List.insertionSort strLe (current.filter (fun s => !(seenMem seenL s)))

/-- The delivery loop of `main` (src/main.py lines 213-216): outcome of
the fold (an uncaught exception aborts it), the urls actually passed to
`post_to_slack`, and the accumulated side-effect trace. -/
def deliverLoop (cfg : Config) (net : String → CallEnv) :
    List String → Except Unit Nat × List String × List Op
  | [] => (Except.ok 0, [], [])
  | u :: rest =>
    let p := post_to_slack cfg (net u) u
    match p.1 with
    | Except.error e => (Except.error e, [u], p.2)
    | Except.ok b =>
      let r := deliverLoop cfg net rest
      (r.1.map (fun n => (if b then 1 else 0) + n), u :: r.2.1, p.2 ++ r.2.2)

/-- Observable summary of a completed run. -/
structure MainSummary where
  successCount : Nat
  attempted : List String
  saved : Option (List String)
deriving DecidableEq

/-- The source's `main` (src/main.py lines 191-224); named `main_run`
because Lean reserves `main` for an executable entry point.  `file` is
the state-file content, `scrape` the outcome of `run_scraper()` (an
external collaborator; `Except.error` is a fatal scrape failure), `net`
the per-photo external-call outcomes.  Returns the run outcome
(`Except.error` models an uncaught exception) and the side-effect
trace. -/
def main_run (cfg : Config) (file : Option String) (scrape : Except Unit (List String))
    (net : String → CallEnv) : Except Unit MainSummary × List Op :=
  if truthy cfg.album_url = false then (Except.ok ⟨0, [], none⟩, [])
  else if truthy cfg.slack_webhook = false then (Except.ok ⟨0, [], none⟩, [])
  else
    match load_seen_photos file with
    | Except.error _ => (Except.error (), [Op.readStateFile])
    | Except.ok seenL =>
      match scrape with
      | Except.error _ => (Except.error (), [Op.readStateFile, Op.scrapeAlbum])
      | Except.ok urls =>
        let current : List String := pyStrSet urls
        let newList := newPhotosList seenL current
        if newList.isEmpty then (Except.ok ⟨0, [], none⟩, [Op.readStateFile, Op.scrapeAlbum])
        else
          let r := deliverLoop cfg net newList
          match r.1 with
          | Except.error _ =>
            (Except.error (), Op.readStateFile :: Op.scrapeAlbum :: r.2.2)
          | Except.ok cnt =>
            if 0 < cnt then
              (Except.ok ⟨cnt, r.2.1, some current⟩,
                (Op.readStateFile :: Op.scrapeAlbum :: r.2.2) ++ [Op.writeStateFile current])
            else (Except.ok ⟨cnt, r.2.1, none⟩, Op.readStateFile :: Op.scrapeAlbum :: r.2.2)

theorem skipWs_cons_of_neg {c : Char} (h : isWsChar c = false) (t : List Char) :
    skipWs (c :: t) = c :: t := by
  simp [skipWs, List.dropWhile_cons, h]

theorem skipWs_ws_append {sp : List Char} (h : ∀ c ∈ sp, isWsChar c = true)
    (t : List Char) : skipWs (sp ++ t) = skipWs t := by
  induction sp with
  | nil => simp
  | cons c cs ih =>
    have hc : isWsChar c = true := h c (by simp)
    simp only [List.cons_append, skipWs, List.dropWhile_cons, hc, if_true]
    exact ih (fun d hd => h d (by simp [hd]))

theorem beqAtom_eq_true_iff {a b : J} (ha : hashableJ a = true) :
    beqAtom a b = true ↔ a = b := by
  cases a <;> cases b <;> simp_all [beqAtom, hashableJ]

theorem mem_pySetInsert {acc : List J} {y : J} (hy : hashableJ y = true) (x : J) :
    x ∈ pySetInsert acc y ↔ x ∈ acc ∨ x = y := by
  unfold pySetInsert
  by_cases h : acc.any (fun j => beqAtom j y) = true
  · rw [if_pos h]
    rcases List.any_eq_true.mp h with ⟨j, hj, hbeq⟩
    have hjy : j = y := by
      have : beqAtom y j = true ↔ y = j := beqAtom_eq_true_iff hy
      cases y <;> cases j <;> simp_all [beqAtom]
    constructor
    · exact Or.inl
    · rintro (hx | rfl)
      · exact hx
      · exact hjy ▸ hj
  · rw [if_neg h]
    simp

theorem mem_foldl_pySetInsert (xs : List J) :
    ∀ (acc : List J), (∀ j ∈ xs, hashableJ j = true) → ∀ x : J,
      (x ∈ xs.foldl pySetInsert acc ↔ x ∈ acc ∨ x ∈ xs) := by
  induction xs with
  | nil => simp
  | cons y ys ih =>
    intro acc hh x
    have hy : hashableJ y = true := hh y (by simp)
    simp only [List.foldl_cons]
    rw [ih (pySetInsert acc y) (fun j hj => hh j (by simp [hj])) x]
    rw [mem_pySetInsert hy x]
    simp only [List.mem_cons]
    tauto

theorem mem_pySetOfList {xs : List J} (hh : ∀ j ∈ xs, hashableJ j = true) (x : J) :
    x ∈ pySetOfList xs ↔ x ∈ xs := by
  unfold pySetOfList
  rw [mem_foldl_pySetInsert xs [] hh x]
  simp

theorem mem_foldl_strInsert (l : List String) :
    ∀ (acc : List String) (x : String),
      (x ∈ l.foldl (fun acc x => if x ∈ acc then acc else acc ++ [x]) acc ↔
        x ∈ acc ∨ x ∈ l) := by
  induction l with
  | nil => simp
  | cons y ys ih =>
    intro acc x
    simp only [List.foldl_cons]
    rw [ih]
    by_cases h : y ∈ acc
    · rw [if_pos h]
      simp only [List.mem_cons]
      constructor
      · rintro (hx | hx)
        · exact Or.inl hx
        · exact Or.inr (Or.inr hx)
      · rintro (hx | rfl | hx)
        · exact Or.inl hx
        · exact Or.inl h
        · exact Or.inr hx
    · rw [if_neg h]
      simp only [List.mem_append, List.mem_singleton, List.mem_cons]
      tauto

theorem mem_pyStrSet (l : List String) (x : String) :
    x ∈ pyStrSet l ↔ x ∈ l := by
  unfold pyStrSet
  rw [mem_foldl_strInsert]
  simp

theorem nodup_foldl_strInsert (l : List String) :
    ∀ (acc : List String), acc.Nodup →
      (l.foldl (fun acc x => if x ∈ acc then acc else acc ++ [x]) acc).Nodup := by
  induction l with
  | nil => exact fun acc h => h
  | cons y ys ih =>
    intro acc hacc
    simp only [List.foldl_cons]
    by_cases h : y ∈ acc
    · rw [if_pos h]
      exact ih acc hacc
    · rw [if_neg h]
      refine ih (acc ++ [y]) ?_
      simp [List.nodup_append, hacc, h]

theorem nodup_pyStrSet (l : List String) : (pyStrSet l).Nodup :=
  nodup_foldl_strInsert l [] List.nodup_nil

theorem lexLeChars_total : ∀ a b : List Char,
    lexLeChars a b = true ∨ lexLeChars b a = true := by
  intro a
  induction a with
  | nil => intro b; left; rfl
  | cons x xs ih =>
    intro b
    cases b with
    | nil => right; rfl
    | cons y ys =>
      by_cases hxy : x.toNat < y.toNat
      · left
        simp [lexLeChars, hxy]
      · by_cases hyx : y.toNat < x.toNat
        · right
          simp [lexLeChars, hyx]
        · rcases ih ys with h | h <;> [left; right] <;>
            simp [lexLeChars, hxy, hyx, h]

theorem lexLeChars_trans : ∀ a b c : List Char,
    lexLeChars a b = true → lexLeChars b c = true → lexLeChars a c = true := by
  intro a
  induction a with
  | nil => intro b c _ _; rfl
  | cons x xs ih =>
    intro b c hab hbc
    cases b with
    | nil => simp [lexLeChars] at hab
    | cons y ys =>
      cases c with
      | nil => simp [lexLeChars] at hbc
      | cons z zs =>
        simp only [lexLeChars] at hab hbc ⊢
        by_cases hxy : x.toNat < y.toNat
        · by_cases hyz : y.toNat < z.toNat
          · simp [Nat.lt_trans hxy hyz]
          · by_cases hzy : z.toNat < y.toNat
            · simp only [if_neg hyz, if_pos hzy] at hbc
              exact absurd hbc (by simp)
            · have hyz2 : y.toNat = z.toNat := Nat.le_antisymm (Nat.not_lt.mp hzy) (Nat.not_lt.mp hyz)
              simp [hyz2 ▸ hxy]
        · by_cases hyx : y.toNat < x.toNat
          · simp only [if_neg hxy, if_pos hyx] at hab
            exact absurd hab (by simp)
          · have hxy2 : x.toNat = y.toNat := Nat.le_antisymm (Nat.not_lt.mp hyx) (Nat.not_lt.mp hxy)
            by_cases hyz : y.toNat < z.toNat
            · simp [hxy2 ▸ hyz]
            · by_cases hzy : z.toNat < y.toNat
              · simp only [if_neg hyz, if_pos hzy] at hbc
                exact absurd hbc (by simp)
              · simp only [if_neg hxy, if_neg hyx] at hab
                simp only [if_neg hyz, if_neg hzy] at hbc
                have hxz : ¬ x.toNat < z.toNat := hxy2 ▸ hyz
                have hzx : ¬ z.toNat < x.toNat := hxy2 ▸ hzy
                simp [if_neg hxz, if_neg hzx, ih ys zs hab hbc]

instance : IsTotal String strLe := ⟨fun a b => lexLeChars_total a.data b.data⟩

instance : IsTrans String strLe :=
  ⟨fun a b c hab hbc => lexLeChars_trans a.data b.data c.data hab hbc⟩


/-- Characters that `json.dump` writes either verbatim or with a
one-character backslash escape: printable ASCII. -/
def printableChar (c : Char) : Prop := 0x20 ≤ c.toNat ∧ c.toNat ≤ 0x7e

theorem parseStrBody_dump (l : List Char) :
    ∀ (rest : List Char), (∀ c ∈ l, printableChar c) →
      parseStrBody ((l.map escapeChar).flatten ++ '"' :: rest) = some (l, rest) := by
  induction l with
  | nil =>
    intro rest _
    show parseStrBody ('"' :: rest) = some ([], rest)
    unfold parseStrBody
    rw [if_pos rfl]
  | cons c cs ih =>
    intro rest h
    have hc : printableChar c := h c (by simp)
    have hcs : ∀ d ∈ cs, printableChar d := fun d hd => h d (by simp [hd])
    by_cases hq : c = '"' ∨ c = '\\'
    · have he : escapeChar c = ['\\', c] := by simp [escapeChar, if_pos hq]
      have harg : ((c :: cs).map escapeChar).flatten ++ '"' :: rest =
          '\\' :: c :: ((cs.map escapeChar).flatten ++ '"' :: rest) := by
        simp [he]
      rw [harg]
      unfold parseStrBody
      have h1 : ('\\' : Char) ≠ '"' := by decide
      have h2 : c = '"' ∨ c = '\\' ∨ c = '/' := by tauto
      rw [if_neg h1, if_pos rfl]
      simp only [if_pos h2, ih rest hcs, Option.map_some']
    · have hq1 : c ≠ '"' := fun hx => hq (Or.inl hx)
      have hq2 : c ≠ '\\' := fun hx => hq (Or.inr hx)
      have he : escapeChar c = [c] := by simp [escapeChar, hq1, hq2]
      have harg : ((c :: cs).map escapeChar).flatten ++ '"' :: rest =
          c :: ((cs.map escapeChar).flatten ++ '"' :: rest) := by
        simp [he]
      rw [harg]
      unfold parseStrBody
      have h3 : ¬ c.toNat < 0x20 := Nat.not_lt.mpr hc.1
      rw [if_neg hq1, if_neg hq2, if_neg h3, ih rest hcs]
      rfl

theorem dumpStringChars_cons (s : String) (t : List Char) :
    dumpStringChars s ++ t =
      '"' :: ((s.data.map escapeChar).flatten ++ '"' :: t) := by
  simp [dumpStringChars, List.append_assoc]

theorem skipWs_dumpStringChars (s : String) (t : List Char) :
    skipWs (dumpStringChars s ++ t) = dumpStringChars s ++ t := by
  rw [dumpStringChars_cons]
  exact skipWs_cons_of_neg (by decide) _

theorem parseVal_string (g : Nat) (cs rest : List Char) (s : String)
    (hws : skipWs cs = dumpStringChars s ++ rest)
    (hwf : ∀ c ∈ s.data, printableChar c) :
    parseVal (g + 1) cs = some (J.str s, rest) := by
  rw [dumpStringChars_cons] at hws
  unfold parseVal
  rw [hws]
  show (if ('"' : Char) = '"' then
      Option.map (fun p => (J.str (String.mk p.1), p.2))
        (parseStrBody ((s.data.map escapeChar).flatten ++ '"' :: rest))
    else _) = _
  rw [if_pos rfl, parseStrBody_dump s.data rest hwf]
  rfl

theorem parseElemsAux_dump (pv : List Char → Option (J × List Char))
    (hpv : ∀ (cs rest : List Char) (s : String),
      skipWs cs = dumpStringChars s ++ rest → (∀ c ∈ s.data, printableChar c) →
      pv cs = some (J.str s, rest))
    (l : List String) :
    ∀ (f : Nat) (sp rest : List Char),
      l ≠ [] → (∀ s ∈ l, ∀ c ∈ s.data, printableChar c) →
      (∀ c ∈ sp, isWsChar c = true) → l.length ≤ f →
      parseElemsAux pv f (sp ++ (dumpItems l ++ ']' :: rest)) =
        some (l.map J.str, rest) := by
  induction l with
  | nil => intro f sp rest hne; exact absurd rfl hne
  | cons a t ih =>
    intro f sp rest _ hwf hsp hlen
    obtain ⟨f', rfl⟩ : ∃ f', f = f' + 1 := by
      cases f with
      | zero => simp at hlen
      | succ k => exact ⟨k, rfl⟩
    have hwa : ∀ c ∈ a.data, printableChar c := hwf a (by simp)
    cases t with
    | nil =>
      have hws : skipWs (sp ++ (dumpItems [a] ++ ']' :: rest)) =
          dumpStringChars a ++ (']' :: rest) := by
        rw [skipWs_ws_append hsp]
        simp only [dumpItems, List.append_assoc]
        exact skipWs_dumpStringChars a _
      unfold parseElemsAux
      rw [hpv _ _ a hws hwa]
      simp only []
      rw [skipWs_cons_of_neg (by decide : isWsChar ']' = false)]
      simp
    | cons b t' =>
      have hsplit : dumpItems (a :: b :: t') ++ ']' :: rest =
          dumpStringChars a ++ (',' :: ' ' :: (dumpItems (b :: t') ++ ']' :: rest)) := by
        simp [dumpItems, List.append_assoc]
      have hws : skipWs (sp ++ (dumpItems (a :: b :: t') ++ ']' :: rest)) =
          dumpStringChars a ++ (',' :: ' ' :: (dumpItems (b :: t') ++ ']' :: rest)) := by
        rw [skipWs_ws_append hsp, hsplit]
        exact skipWs_dumpStringChars a _
      unfold parseElemsAux
      rw [hpv _ _ a hws hwa]
      simp only []
      rw [skipWs_cons_of_neg (by decide : isWsChar ',' = false)]
      have hrec := ih f' [' '] rest (by simp)
        (fun s hs => hwf s (by simp [hs]))
        (by intro c hc; simp at hc; simp [hc, isWsChar])
        (by simp at hlen ⊢; omega)
      simp only [List.singleton_append] at hrec
      simp [hrec]

theorem le_length_dumpItems (l : List String) (h : l ≠ []) :
    l.length ≤ (dumpItems l).length := by
  induction l with
  | nil => exact absurd rfl h
  | cons a t ih =>
    cases t with
    | nil =>
      simp only [dumpItems, dumpStringChars, List.length_cons, List.length_append,
        List.length_nil]
      omega
    | cons b t' =>
      have hr := ih (by simp)
      simp only [dumpItems, dumpStringChars, List.length_cons, List.length_append,
        List.length_nil] at hr ⊢
      omega

theorem parseVal_dump_arr (g : Nat) (cs rest : List Char) (l : List String)
    (hne : l ≠ []) (hwf : ∀ s ∈ l, ∀ c ∈ s.data, printableChar c)
    (hws : skipWs cs = '[' :: (dumpItems l ++ ']' :: rest))
    (hg1 : 1 ≤ g) (hgl : l.length ≤ g) :
    parseVal (g + 1) cs = some (J.arr (l.map J.str), rest) := by
  unfold parseVal
  rw [hws]
  simp only []
  rw [if_neg (by decide : ¬ ('[' : Char) = '"')]
  rw [if_pos True.intro]
  obtain ⟨a, t, rfl⟩ : ∃ a t, l = a :: t := by
    cases l with
    | nil => exact absurd rfl hne
    | cons a t => exact ⟨a, t, rfl⟩
  obtain ⟨z, hz⟩ : ∃ z, dumpItems (a :: t) ++ ']' :: rest = dumpStringChars a ++ z := by
    cases t with
    | nil => exact ⟨']' :: rest, by simp [dumpItems]⟩
    | cons b t' =>
      exact ⟨',' :: ' ' :: (dumpItems (b :: t') ++ ']' :: rest),
        by simp [dumpItems, List.append_assoc]⟩
  have hskip : skipWs (dumpItems (a :: t) ++ ']' :: rest) =
      dumpItems (a :: t) ++ ']' :: rest := by
    rw [hz]
    exact skipWs_dumpStringChars a z
  rw [hskip]
  have hhd : (dumpItems (a :: t) ++ ']' :: rest).head? = some '"' := by
    rw [hz, dumpStringChars_cons]
    rfl
  rw [hhd, if_neg (by decide : ¬ (some '"' = some ']'))]
  obtain ⟨g', rfl⟩ : ∃ g', g = g' + 1 := ⟨g - 1, by omega⟩
  have hrec := parseElemsAux_dump (parseVal (g' + 1))
    (fun cs rest s h1 h2 => parseVal_string g' cs rest s h1 h2)
    (a :: t) (g' + 1) [] rest (by simp) hwf (by simp) hgl
  simp only [List.nil_append] at hrec
  rw [hrec]

theorem jsonLoads_dump (l : List String)
    (h : ∀ s ∈ l, ∀ c ∈ s.data, printableChar c) :
    jsonLoads (jsonDumpList l) = some (J.arr (l.map J.str)) := by
  cases l with
  | nil => rfl
  | cons a t =>
    have hdata : (jsonDumpList (a :: t)).data = '[' :: (dumpItems (a :: t) ++ [']']) := rfl
    have hlen : (a :: t).length ≤ (jsonDumpList (a :: t)).data.length := by
      have h1 := le_length_dumpItems (a :: t) (by simp)
      rw [hdata]
      simp only [List.length_cons, List.length_append, List.length_nil] at h1 ⊢
      omega
    have hg1 : 1 ≤ (jsonDumpList (a :: t)).data.length := by
      rw [hdata]
      simp
    have hws : skipWs ((jsonDumpList (a :: t)).data) =
        '[' :: (dumpItems (a :: t) ++ ']' :: ([] : List Char)) := by
      rw [hdata]
      exact skipWs_cons_of_neg (by decide) _
    have hv := parseVal_dump_arr ((jsonDumpList (a :: t)).data.length)
      ((jsonDumpList (a :: t)).data) [] (a :: t) (by simp) h hws hg1 hlen
    unfold jsonLoads
    rw [hv]
    rfl

theorem pyStrip_bracket (xs : List Char) :
    pyStrip (String.mk ('[' :: xs ++ [']'])) = String.mk ('[' :: xs ++ [']']) := by
  unfold pyStrip
  have h1 : (String.mk ('[' :: xs ++ [']'])).data = '[' :: xs ++ [']'] := rfl
  rw [h1]
  have h2 : List.dropWhile isWsChar ('[' :: xs ++ [']']) = '[' :: xs ++ [']'] := rfl
  rw [h2]
  have h3 : ('[' :: xs ++ [']']).reverse = ']' :: (xs.reverse ++ ['[']) := by
    simp
  rw [h3]
  have h4 : List.dropWhile isWsChar (']' :: (xs.reverse ++ ['['])) =
      ']' :: (xs.reverse ++ ['[']) := rfl
  rw [h4, ← h3, List.reverse_reverse]

theorem pyStrip_jsonDumpList (l : List String) :
    pyStrip (jsonDumpList l) = jsonDumpList l :=
  pyStrip_bracket (dumpItems l)

theorem wellFormedId_printable {s : String} (h : wellFormedId s = true) :
    ∀ c ∈ s.data, printableChar c := by
  intro c hc
  have := (List.all_eq_true.mp h) c hc
  simp only [Bool.and_eq_true, decide_eq_true_eq] at this
  exact this

theorem load_save_round (l : List String) (h : ∀ s ∈ l, wellFormedId s = true) :
    load_seen_photos (some (save_seen_photos l)) =
      Except.ok (pySetOfList (l.map J.str)) := by
  have hpr : ∀ s ∈ l, ∀ c ∈ s.data, printableChar c :=
    fun s hs => wellFormedId_printable (h s hs)
  unfold load_seen_photos save_seen_photos
  simp only []
  rw [pyStrip_jsonDumpList]
  have hne : jsonDumpList l ≠ "" := by
    intro he
    have h0 : (jsonDumpList l).data = '[' :: (dumpItems l ++ [']']) := rfl
    rw [he] at h0
    exact List.cons_ne_nil _ _ h0.symm
  rw [if_neg hne, jsonLoads_dump l hpr]
  have hh : (l.map J.str).all hashableJ = true := by
    simp only [List.all_eq_true, List.mem_map]
    rintro j ⟨s, _, rfl⟩
    rfl
  simp [pySet, hh]

/-- Whether an operation touches the persisted seen-state file. -/
def isStateOp : Op → Bool
  | Op.readStateFile => true
  | Op.writeStateFile _ => true
  | _ => false

theorem webhookFallback_nohook {cfg : Config} (call : CallEnv) (m : Option String)
    (acc : List Op) (hw : truthy cfg.slack_webhook = false) :
    webhookFallback cfg call m acc = (Except.error (), acc) := by
  simp [webhookFallback, hw]

theorem webhookFallback_raise {cfg : Config} {call : CallEnv} (m : Option String)
    (acc : List Op) (hw : truthy cfg.slack_webhook = true)
    (hp : call.webhookPost = NetResult.raise) :
    (webhookFallback cfg call m acc).1 = Except.error () := by
  simp [webhookFallback, hw, hp]

theorem webhookFallback_resp {cfg : Config} {call : CallEnv} {st : Nat} {b : Bool}
    (m : Option String) (acc : List Op) (hw : truthy cfg.slack_webhook = true)
    (hp : call.webhookPost = NetResult.resp st b) :
    (webhookFallback cfg call m acc).1 =
      Except.ok (if st = 200 then true else false) := by
  simp [webhookFallback, hw, hp]

theorem webhookFallback_ops_sub (cfg : Config) (call : CallEnv) (m : Option String)
    (acc : List Op) :
    ∀ op ∈ (webhookFallback cfg call m acc).2,
      op ∈ acc ∨ ∃ t, op = Op.httpPostWebhook t := by
  intro op hop
  by_cases hw : truthy cfg.slack_webhook = true
  · cases hcall : call.webhookPost with
    | raise =>
      simp only [webhookFallback, hw, if_pos, hcall] at hop
      rcases List.mem_append.mp hop with h | h
      · exact Or.inl h
      · simp at h
        exact Or.inr ⟨_, h⟩
    | resp st b =>
      simp only [webhookFallback, hw, if_pos, hcall] at hop
      rcases List.mem_append.mp hop with h | h
      · exact Or.inl h
      · simp at h
        exact Or.inr ⟨_, h⟩
  · rw [webhookFallback_nohook call m acc (by simpa using hw)] at hop
    exact Or.inl hop

theorem webhookFallback_msg (cfg : Config) (call : CallEnv) (m : Option String)
    (acc : List Op) :
    ∀ t, Op.httpPostWebhook t ∈ (webhookFallback cfg call m acc).2 →
      Op.httpPostWebhook t ∈ acc ∨
        t = webhookHeader ++
          (match m with
           | some mm => if mm = "" then "" else "\n" ++ mm
           | none => "") := by
  intro t ht
  by_cases hw : truthy cfg.slack_webhook = true
  · cases hcall : call.webhookPost with
    | raise =>
      simp only [webhookFallback, hw, if_pos, hcall] at ht
      rcases List.mem_append.mp ht with h | h
      · exact Or.inl h
      · simp at h
        exact Or.inr h
    | resp st b =>
      simp only [webhookFallback, hw, if_pos, hcall] at ht
      rcases List.mem_append.mp ht with h | h
      · exact Or.inl h
      · simp at h
        exact Or.inr h
  · rw [webhookFallback_nohook call m acc (by simpa using hw)] at ht
    exact Or.inl ht

theorem post_to_slack_no_token {cfg : Config} (call : CallEnv) (url : String)
    (h : truthy cfg.slack_api_token = false) :
    post_to_slack cfg call url = webhookFallback cfg call none [] := by
  simp [post_to_slack, h]

theorem post_to_slack_download_raise {cfg : Config} {call : CallEnv} (url : String)
    (h : truthy cfg.slack_api_token = true)
    (hd : call.download = NetResult.raise) :
    post_to_slack cfg call url =
      webhookFallback cfg call none [Op.httpGetImage url] := by
  simp [post_to_slack, h, hd]

theorem post_to_slack_download_bad {cfg : Config} {call : CallEnv} {st : Nat} {b : Bool}
    (url : String) (h : truthy cfg.slack_api_token = true)
    (hd : call.download = NetResult.resp st b) (hst : st ≠ 200) :
    post_to_slack cfg call url = (Except.ok false, [Op.httpGetImage url]) := by
  simp [post_to_slack, h, hd, hst]

theorem post_to_slack_upload_raise {cfg : Config} {call : CallEnv} {b : Bool}
    (url : String) (h : truthy cfg.slack_api_token = true)
    (hd : call.download = NetResult.resp 200 b)
    (hu : call.upload = NetResult.raise) :
    post_to_slack cfg call url =
      webhookFallback cfg call (some (metadataTextOf call.exif))
        [Op.httpGetImage url, Op.createTempFile, Op.httpPostUpload] := by
  simp [post_to_slack, h, hd, hu]

theorem post_to_slack_upload_resp {cfg : Config} {call : CallEnv} {b : Bool}
    {ust : Nat} {uok : Bool} (url : String)
    (h : truthy cfg.slack_api_token = true)
    (hd : call.download = NetResult.resp 200 b)
    (hu : call.upload = NetResult.resp ust uok)
    (hfail : ¬ (ust = 200 ∧ uok = true)) :
    post_to_slack cfg call url =
      webhookFallback cfg call (some (metadataTextOf call.exif))
        [Op.httpGetImage url, Op.createTempFile, Op.httpPostUpload,
          Op.deleteTempFile] := by
  simp [post_to_slack, h, hd, hu, hfail]

theorem post_to_slack_upload_ok {cfg : Config} {call : CallEnv} {b : Bool}
    {uok : Bool} (url : String)
    (h : truthy cfg.slack_api_token = true)
    (hd : call.download = NetResult.resp 200 b)
    (hu : call.upload = NetResult.resp 200 uok) (hok : uok = true) :
    post_to_slack cfg call url =
      (Except.ok true,
        [Op.httpGetImage url, Op.createTempFile, Op.httpPostUpload,
          Op.deleteTempFile]) := by
  simp [post_to_slack, h, hd, hu, hok]

theorem post_to_slack_ops_no_state (cfg : Config) (call : CallEnv) (url : String) :
    ∀ op ∈ (post_to_slack cfg call url).2, isStateOp op = false := by
  intro op hop
  by_cases ht : truthy cfg.slack_api_token = true
  · cases hd : call.download with
    | raise =>
      rw [post_to_slack_download_raise url ht hd] at hop
      rcases webhookFallback_ops_sub _ _ _ _ op hop with h | ⟨t, rfl⟩
      · simp at h
        subst h
        rfl
      · rfl
    | resp st b =>
      by_cases hst : st = 200
      · subst hst
        cases hu : call.upload with
        | raise =>
          rw [post_to_slack_upload_raise url ht hd hu] at hop
          rcases webhookFallback_ops_sub _ _ _ _ op hop with h | ⟨t, rfl⟩
          · simp at h
            rcases h with rfl | rfl | rfl <;> rfl
          · rfl
        | resp ust uok =>
          by_cases hok : ust = 200 ∧ uok = true
          · obtain ⟨rfl, hok2⟩ := hok
            rw [post_to_slack_upload_ok url ht hd hu hok2] at hop
            simp at hop
            rcases hop with rfl | rfl | rfl | rfl <;> rfl
          · rw [post_to_slack_upload_resp url ht hd hu hok] at hop
            rcases webhookFallback_ops_sub _ _ _ _ op hop with h | ⟨t, rfl⟩
            · simp at h
              rcases h with rfl | rfl | rfl | rfl <;> rfl
            · rfl
      · rw [post_to_slack_download_bad url ht hd hst] at hop
        simp at hop
        subst hop
        rfl
  · rw [post_to_slack_no_token call url (by simpa using ht)] at hop
    rcases webhookFallback_ops_sub _ _ _ _ op hop with h | ⟨t, rfl⟩
    · simp at h
    · rfl

theorem deliverLoop_ops_no_state (cfg : Config) (net : String → CallEnv) :
    ∀ (us : List String) (op : Op), op ∈ (deliverLoop cfg net us).2.2 →
      isStateOp op = false := by
  intro us
  induction us with
  | nil =>
    intro op hop
    simp [deliverLoop] at hop
  | cons u rest ih =>
    intro op hop
    unfold deliverLoop at hop
    simp only [] at hop
    cases hp : (post_to_slack cfg (net u) u).1 with
    | error e =>
      rw [hp] at hop
      simp only [] at hop
      exact post_to_slack_ops_no_state cfg (net u) u op hop
    | ok b =>
      rw [hp] at hop
      simp only [] at hop
      rcases List.mem_append.mp hop with h | h
      · exact post_to_slack_ops_no_state cfg (net u) u op h
      · exact ih op h

theorem deliverLoop_ok (cfg : Config) (net : String → CallEnv) :
    ∀ (us : List String),
      (∀ u ∈ us, (post_to_slack cfg (net u) u).1 ≠ Except.error ()) →
      (∃ n, (deliverLoop cfg net us).1 = Except.ok n) ∧
        (deliverLoop cfg net us).2.1 = us := by
  intro us
  induction us with
  | nil => exact fun _ => ⟨⟨0, rfl⟩, rfl⟩
  | cons u rest ih =>
    intro h
    cases hp : (post_to_slack cfg (net u) u).1 with
    | error e =>
      cases e
      exact absurd hp (h u (by simp))
    | ok b =>
      obtain ⟨⟨n, hn⟩, hatt⟩ := ih (fun v hv => h v (by simp [hv]))
      unfold deliverLoop
      simp only []
      rw [hp]
      simp only [hn, hatt]
      exact ⟨⟨(if b then 1 else 0) + n, rfl⟩, trivial⟩

theorem main_run_spec (cfg : Config) (file : Option String) (urls : List String)
    (net : String → CallEnv) (seenL : List J)
    (ha : truthy cfg.album_url = true) (hw : truthy cfg.slack_webhook = true)
    (hl : load_seen_photos file = Except.ok seenL) :
    main_run cfg file (Except.ok urls) net =
      (if (newPhotosList seenL (pyStrSet urls)).isEmpty then
        (Except.ok ⟨0, [], none⟩, [Op.readStateFile, Op.scrapeAlbum])
      else
        match (deliverLoop cfg net (newPhotosList seenL (pyStrSet urls))).1 with
        | Except.error _ =>
          (Except.error (), Op.readStateFile :: Op.scrapeAlbum ::
            (deliverLoop cfg net (newPhotosList seenL (pyStrSet urls))).2.2)
        | Except.ok cnt =>
          if 0 < cnt then
            (Except.ok ⟨cnt, (deliverLoop cfg net (newPhotosList seenL (pyStrSet urls))).2.1,
              some (pyStrSet urls)⟩,
              (Op.readStateFile :: Op.scrapeAlbum ::
                (deliverLoop cfg net (newPhotosList seenL (pyStrSet urls))).2.2) ++
                [Op.writeStateFile (pyStrSet urls)])
          else
            (Except.ok ⟨cnt, (deliverLoop cfg net (newPhotosList seenL (pyStrSet urls))).2.1,
              none⟩,
              Op.readStateFile :: Op.scrapeAlbum ::
                (deliverLoop cfg net (newPhotosList seenL (pyStrSet urls))).2.2)) := by
  unfold main_run
  rw [ha, hw, hl]
  rfl

theorem main_run_trace_shape (cfg : Config) (file : Option String)
    (scrape : Except Unit (List String)) (net : String → CallEnv) :
    (∀ op ∈ (main_run cfg file scrape net).2, ∀ y, op ≠ Op.writeStateFile y) ∨
    (∃ pre w, (main_run cfg file scrape net).2 = pre ++ [Op.writeStateFile w] ∧
      ∀ op ∈ pre, ∀ y, op ≠ Op.writeStateFile y) := by
  have hNoDel : ∀ us op, op ∈ (deliverLoop cfg net us).2.2 →
      ∀ y, op ≠ Op.writeStateFile y := by
    intro us op hop y heq
    have := deliverLoop_ops_no_state cfg net us op hop
    rw [heq] at this
    exact absurd this (by simp [isStateOp])
  unfold main_run
  split
  · left; intro op hop; simp at hop
  · split
    · left; intro op hop; simp at hop
    · split
      · left; intro op hop; simp at hop
        subst hop
        intro y
        simp
      · split
        · left; intro op hop; simp at hop
          rcases hop with rfl | rfl <;> intro y <;> simp
        · simp only []
          split
          · left; intro op hop; simp at hop
            rcases hop with rfl | rfl <;> intro y <;> simp
          · split
            · left
              intro op hop
              simp only [List.mem_cons] at hop
              rcases hop with rfl | rfl | h
              · intro y; simp
              · intro y; simp
              · exact hNoDel _ op h
            · split
              · right
                refine ⟨_, _, rfl, ?_⟩
                intro op hop
                simp only [List.mem_cons] at hop
                rcases hop with rfl | rfl | h
                · intro y; simp
                · intro y; simp
                · exact hNoDel _ op h
              · left
                intro op hop
                simp only [List.mem_cons] at hop
                rcases hop with rfl | rfl | h
                · intro y; simp
                · intro y; simp
                · exact hNoDel _ op h

instance {ε α : Type} [DecidableEq ε] [DecidableEq α] : DecidableEq (Except ε α) :=
  fun a b =>
  match a, b with
  | Except.error x, Except.error y =>
    if h : x = y then isTrue (by rw [h]) else isFalse (by simp [h])
  | Except.ok x, Except.ok y =>
    if h : x = y then isTrue (by rw [h]) else isFalse (by simp [h])
  | Except.error _, Except.ok _ => isFalse (by simp)
  | Except.ok _, Except.error _ => isFalse (by simp)

theorem toFinset_pyStrSet (urls : List String) :
    (pyStrSet urls).toFinset = urls.toFinset := by
  ext x
  simp [List.mem_toFinset, mem_pyStrSet]

theorem deliverLoop_no_write (cfg : Config) (net : String → CallEnv)
    (us : List String) : ∀ x, Op.writeStateFile x ∉ (deliverLoop cfg net us).2.2 := by
  intro x hx
  have := deliverLoop_ops_no_state cfg net us _ hx
  simp [isStateOp] at this

theorem webhookFallback_acc_mem (cfg : Config) (call : CallEnv) (m : Option String)
    (acc : List Op) : ∀ op ∈ acc, op ∈ (webhookFallback cfg call m acc).2 := by
  intro op hop
  by_cases hw : truthy cfg.slack_webhook = true
  · cases hcall : call.webhookPost with
    | raise => simp [webhookFallback, hw, hcall, hop]
    | resp st b => simp [webhookFallback, hw, hcall, hop]
  · rw [webhookFallback_nohook call m acc (by simpa using hw)]
    exact hop

/-- C8: if a required configuration setting (`ALBUM_URL` or `SLACK_WEBHOOK`)
is falsy, `main` returns before any scraping; the side-effect trace is
empty, so the seen-state file is neither read nor written and no delivery
is attempted (src/main.py lines 195-201). -/
theorem main_config_abort (cfg : Config) (file : Option String)
    (scrape : Except Unit (List String)) (net : String → CallEnv)
    (h : truthy cfg.album_url = false ∨ truthy cfg.slack_webhook = false) :
    main_run cfg file scrape net = (Except.ok ⟨0, [], none⟩, []) := by
  unfold main_run
  rcases h with h | h
  · rw [h, if_pos rfl]
  · by_cases ha : truthy cfg.album_url = false
    · rw [ha, if_pos rfl]
    · rw [if_neg ha, h, if_pos rfl]

/-- Witness for C8: with `ALBUM_URL` unset, a run that would otherwise
deliver a photo does nothing at all. -/
theorem main_config_abort_witness :
    main_run ⟨none, some "https://hook", some "tok"⟩ none (Except.ok ["a.jpg"])
        (fun _ => ⟨NetResult.resp 200 true, none, NetResult.resp 200 true,
          NetResult.resp 200 true⟩) =
      (Except.ok ⟨0, [], none⟩, []) :=
  main_config_abort _ _ _ _ (Or.inl rfl)

/-- C10: when no upload credential is configured, tier 1 is skipped, the
fallback's `locals()` check finds no `metadata_text`, and every webhook
message posted by `post_to_slack` is exactly the fixed header
(src/main.py lines 49 and 130-146). -/
theorem webhook_message_no_metadata (cfg : Config) (call : CallEnv) (url : String)
    (h : truthy cfg.slack_api_token = false) :
    ∀ t, Op.httpPostWebhook t ∈ (post_to_slack cfg call url).2 →
      t = webhookHeader := by
  intro t ht
  rw [post_to_slack_no_token call url h] at ht
  rcases webhookFallback_msg cfg call none [] t ht with h2 | h2
  · simp at h2
  · exact h2.trans rfl

/-- Witness for C10: a concrete no-token run posts exactly the header. -/
theorem webhook_message_no_metadata_witness :
    Op.httpPostWebhook webhookHeader ∈
      (post_to_slack ⟨some "http://album", some "https://hook", none⟩
        ⟨NetResult.resp 200 true, some (some "2024:01:01", some ("Apple", "iPhone")),
          NetResult.resp 200 true, NetResult.resp 200 true⟩ "u").2 ∧
    webhookHeader = webhookHeader :=
  ⟨by decide,
    webhook_message_no_metadata ⟨some "http://album", some "https://hook", none⟩
      ⟨NetResult.resp 200 true, some (some "2024:01:01", some ("Apple", "iPhone")),
        NetResult.resp 200 true, NetResult.resp 200 true⟩ "u" rfl webhookHeader
      (by decide)⟩

/-- C2 counterexample: with a credential configured, a 404 image download
makes `post_to_slack` return `False` immediately (src/main.py line 56) —
the webhook tier is never attempted (the trace holds only the GET), even
though the webhook would have answered 200.  The claim asserts `delivered`
for this case. -/
theorem post_to_slack_non200_download_counterexample :
    post_to_slack ⟨some "http://album", some "https://hook", some "tok"⟩
        ⟨NetResult.resp 404 true, none, NetResult.resp 200 true,
          NetResult.resp 200 true⟩ "http://x/a.jpg?tok" =
      (Except.ok false, [Op.httpGetImage "http://x/a.jpg?tok"]) := by
  rfl

/-- C2 amended: tier-1 failures at the download-exception or upload stage
(transport exception, non-200 upload, or `ok=false` upload) fall through
to tier 2 and return `delivered` when the webhook POST answers 200; but a
non-200 image download returns `failed` directly without attempting
tier 2 (src/main.py lines 53-56 versus 117-128). -/
theorem post_to_slack_fallback_amended (cfg : Config) (call : CallEnv) (url : String)
    (ht : truthy cfg.slack_api_token = true)
    (hw : truthy cfg.slack_webhook = true)
    (hfail : call.download = NetResult.raise ∨
      (∃ b, call.download = NetResult.resp 200 b ∧
        (call.upload = NetResult.raise ∨
          ∃ ust uok, call.upload = NetResult.resp ust uok ∧
            ¬(ust = 200 ∧ uok = true))))
    (hpost : ∃ b2, call.webhookPost = NetResult.resp 200 b2) :
    (post_to_slack cfg call url).1 = Except.ok true := by
  obtain ⟨b2, hp⟩ := hpost
  rcases hfail with hd | ⟨b, hd, hu⟩
  · rw [post_to_slack_download_raise url ht hd,
      webhookFallback_resp none [Op.httpGetImage url] hw hp]
    simp
  · rcases hu with hu | ⟨ust, uok, hu, hfail2⟩
    · rw [post_to_slack_upload_raise url ht hd hu, webhookFallback_resp _ _ hw hp]
      simp
    · rw [post_to_slack_upload_resp url ht hd hu hfail2,
        webhookFallback_resp _ _ hw hp]
      simp

/-- Witness for the amended C2: an upload that answers 500 falls through
and the 200 webhook makes the delivery succeed. -/
theorem post_to_slack_fallback_amended_witness :
    (post_to_slack ⟨some "http://album", some "https://hook", some "tok"⟩
        ⟨NetResult.resp 200 true, none, NetResult.resp 500 true,
          NetResult.resp 200 true⟩ "u").1 = Except.ok true :=
  post_to_slack_fallback_amended _ _ _ rfl rfl
    (Or.inr ⟨true, rfl, Or.inr ⟨500, true, rfl, by decide⟩⟩) ⟨true, rfl⟩

/-- C3 counterexample: a transport-level exception in the tier-2 webhook
POST (src/main.py line 148, outside any `try`) escapes `post_to_slack`
uncaught; the claim asserts no exception ever escapes the dispatcher. -/
theorem post_to_slack_webhook_raise_counterexample :
    (post_to_slack ⟨some "http://album", some "https://hook", none⟩
        ⟨NetResult.resp 200 true, none, NetResult.resp 200 true,
          NetResult.raise⟩ "u").1 = Except.error () := by
  rfl

/-- C3 amended: every tier-1 error is contained (it falls through to
tier 2), and whenever the tier-2 webhook POST completes with an HTTP
response — any status — `post_to_slack` returns a boolean outcome and the
batch loop attempts every item; but a transport-level exception during
the tier-2 POST itself propagates out of the dispatcher. -/
theorem post_to_slack_no_raise_amended :
    (∀ (cfg : Config) (call : CallEnv) (url : String),
      truthy cfg.slack_webhook = true → call.webhookPost ≠ NetResult.raise →
      ∃ b, (post_to_slack cfg call url).1 = Except.ok b) ∧
    (∀ (cfg : Config) (net : String → CallEnv) (us : List String),
      truthy cfg.slack_webhook = true →
      (∀ u ∈ us, (net u).webhookPost ≠ NetResult.raise) →
      (∃ n, (deliverLoop cfg net us).1 = Except.ok n) ∧
        (deliverLoop cfg net us).2.1 = us) := by
  have hfirst : ∀ (cfg : Config) (call : CallEnv) (url : String),
      truthy cfg.slack_webhook = true → call.webhookPost ≠ NetResult.raise →
      ∃ b, (post_to_slack cfg call url).1 = Except.ok b := by
    intro cfg call url hw hp
    obtain ⟨st, b2, hp2⟩ : ∃ st b2, call.webhookPost = NetResult.resp st b2 := by
      cases h : call.webhookPost with
      | raise => exact absurd h hp
      | resp st b2 => exact ⟨st, b2, rfl⟩
    by_cases ht : truthy cfg.slack_api_token = true
    · cases hd : call.download with
      | raise =>
        rw [post_to_slack_download_raise url ht hd, webhookFallback_resp _ _ hw hp2]
        exact ⟨_, rfl⟩
      | resp dst db =>
        by_cases hds : dst = 200
        · subst hds
          cases hu : call.upload with
          | raise =>
            rw [post_to_slack_upload_raise url ht hd hu,
              webhookFallback_resp _ _ hw hp2]
            exact ⟨_, rfl⟩
          | resp ust uok =>
            by_cases hok : ust = 200 ∧ uok = true
            · obtain ⟨rfl, hok2⟩ := hok
              rw [post_to_slack_upload_ok url ht hd hu hok2]
              exact ⟨true, rfl⟩
            · rw [post_to_slack_upload_resp url ht hd hu hok,
                webhookFallback_resp _ _ hw hp2]
              exact ⟨_, rfl⟩
        · rw [post_to_slack_download_bad url ht hd hds]
          exact ⟨false, rfl⟩
    · rw [post_to_slack_no_token call url (by simpa using ht),
        webhookFallback_resp _ _ hw hp2]
      exact ⟨_, rfl⟩
  refine ⟨hfirst, ?_⟩
  intro cfg net us hw hp
  apply deliverLoop_ok
  intro u hu
  obtain ⟨b, hb⟩ := hfirst cfg (net u) u hw (hp u hu)
  rw [hb]
  simp

/-- Witness for the amended C3: a concrete two-item batch in which the
first item fails both tiers still attempts the second item. -/
theorem post_to_slack_no_raise_amended_witness :
    (∃ b, (post_to_slack ⟨some "http://album", some "https://hook", none⟩
      ⟨NetResult.resp 200 true, none, NetResult.resp 200 true,
        NetResult.resp 500 true⟩ "u").1 = Except.ok b) ∧
    ((∃ n, (deliverLoop ⟨some "http://album", some "https://hook", none⟩
        (fun u => if u = "a.jpg"
          then ⟨NetResult.resp 200 true, none, NetResult.resp 200 true,
            NetResult.resp 500 true⟩
          else ⟨NetResult.resp 200 true, none, NetResult.resp 200 true,
            NetResult.resp 200 true⟩)
        ["a.jpg", "b.jpg"]).1 = Except.ok n) ∧
      (deliverLoop ⟨some "http://album", some "https://hook", none⟩
        (fun u => if u = "a.jpg"
          then ⟨NetResult.resp 200 true, none, NetResult.resp 200 true,
            NetResult.resp 500 true⟩
          else ⟨NetResult.resp 200 true, none, NetResult.resp 200 true,
            NetResult.resp 200 true⟩)
        ["a.jpg", "b.jpg"]).2.1 = ["a.jpg", "b.jpg"]) :=
  ⟨post_to_slack_no_raise_amended.1 _ _ _ rfl (by decide),
    post_to_slack_no_raise_amended.2 _ _ _ rfl (by decide)⟩

/-- C4 counterexample: a state file holding `5` — valid JSON, but not an
encoded array of identifiers — makes `set(json.loads(content))` raise a
`TypeError`, which the `except json.JSONDecodeError` clause of
`load_seen_photos` does not catch (src/main.py lines 29-37).  The claim
asserts the empty set is returned without raising for every malformed
file. -/
theorem load_seen_photos_number_counterexample :
    load_seen_photos (some "5") = Except.error () := by
  rfl

/-- C4 amended: `load_seen_photos` returns the empty set without raising
when the file is missing, when its stripped content is empty, and when
the content fails JSON decoding (warning case); but content that decodes
to a non-array JSON value can raise (a bare number or literal) or return
a non-empty set (a string or object), and load never writes the file. -/
theorem load_seen_photos_tolerant_amended :
    load_seen_photos none = Except.ok [] ∧
    (∀ raw : String, pyStrip raw = "" → load_seen_photos (some raw) = Except.ok []) ∧
    (∀ raw : String, pyStrip raw ≠ "" → jsonLoads (pyStrip raw) = none →
      load_seen_photos (some raw) = Except.ok []) := by
  refine ⟨rfl, ?_, ?_⟩
  · intro raw h
    unfold load_seen_photos
    simp only []
    rw [if_pos h]
  · intro raw h1 h2
    unfold load_seen_photos
    simp only []
    rw [if_neg h1, h2]

/-- Witness for the amended C4: a blank file and an undecodable file both
load as the empty set. -/
theorem load_seen_photos_tolerant_amended_witness :
    pyStrip "   " = "" ∧ load_seen_photos (some "   ") = Except.ok [] ∧
    pyStrip "nope" ≠ "" ∧ jsonLoads (pyStrip "nope") = none ∧
    load_seen_photos (some "nope") = Except.ok [] :=
  ⟨rfl, load_seen_photos_tolerant_amended.2.1 "   " rfl, by decide, rfl,
    load_seen_photos_tolerant_amended.2.2 "nope" (by decide) rfl⟩

/-- C6: saving any well-formed set of identifiers (in any iteration
order) and loading it back yields exactly that set — serialization
round-trip fidelity; the write is full-replacement, so the loaded set
holds an identifier iff it was in the saved set (src/main.py lines 26-42). -/
theorem seen_state_round_trip (l : List String)
    (h : ∀ s ∈ l, wellFormedId s = true) :
    ∃ S, load_seen_photos (some (save_seen_photos l)) = Except.ok S ∧
      (∀ j : J, j ∈ S ↔ ∃ s ∈ l, j = J.str s) := by
  refine ⟨pySetOfList (l.map J.str), load_save_round l h, ?_⟩
  intro j
  have hh : ∀ j2 ∈ l.map J.str, hashableJ j2 = true := by
    intro j2 hj2
    rcases List.mem_map.mp hj2 with ⟨s, _, rfl⟩
    rfl
  rw [mem_pySetOfList hh j]
  simp only [List.mem_map]
  constructor
  · rintro ⟨s, hs, rfl⟩
    exact ⟨s, hs, rfl⟩
  · rintro ⟨s, hs, rfl⟩
    exact ⟨s, hs, rfl⟩

/-- Witness for C6: a concrete two-identifier set survives the
save/load round trip. -/
theorem seen_state_round_trip_witness :
    ∃ S, load_seen_photos (some (save_seen_photos ["b.jpg", "a.jpg"])) =
        Except.ok S ∧
      (∀ j : J, j ∈ S ↔ ∃ s ∈ ["b.jpg", "a.jpg"], j = J.str s) :=
  seen_state_round_trip ["b.jpg", "a.jpg"] (by decide)

/-- C5: the per-run work list is exactly `sorted(current - seen)`: it has
no duplicates, is sorted in ascending lexicographic order, and holds a
url iff it is in the scraped snapshot and its identifier is not in the
loaded seen set; and a run whose deliveries all return attempts exactly
this list, in this order (src/main.py lines 207-216). -/
theorem new_photos_delta_properties :
    (∀ (seenL : List J) (urls : List String),
      (∀ j ∈ seenL, hashableJ j = true) →
      ((newPhotosList seenL (pyStrSet urls)).Nodup ∧
        List.Sorted strLe (newPhotosList seenL (pyStrSet urls)) ∧
        (∀ u, u ∈ newPhotosList seenL (pyStrSet urls) ↔
          (u ∈ urls ∧ J.str u ∉ seenL)))) ∧
    (∀ (cfg : Config) (file : Option String) (urls : List String)
        (net : String → CallEnv) (seenL : List J),
      truthy cfg.album_url = true → truthy cfg.slack_webhook = true →
      load_seen_photos file = Except.ok seenL →
      (∀ u ∈ newPhotosList seenL (pyStrSet urls),
        (post_to_slack cfg (net u) u).1 ≠ Except.error ()) →
      ∃ s : MainSummary, (main_run cfg file (Except.ok urls) net).1 = Except.ok s ∧
        s.attempted = newPhotosList seenL (pyStrSet urls)) := by
  constructor
  · intro seenL urls hh
    refine ⟨?_, ?_, ?_⟩
    · exact ((List.perm_insertionSort strLe _).nodup_iff).mpr
        ((nodup_pyStrSet urls).filter _)
    · exact List.sorted_insertionSort strLe _
    · intro u
      unfold newPhotosList
      rw [List.Perm.mem_iff (List.perm_insertionSort strLe _), List.mem_filter,
        mem_pyStrSet]
      constructor
      · rintro ⟨h1, h2⟩
        refine ⟨h1, ?_⟩
        intro hmem
        have : seenMem seenL u = true :=
          List.any_eq_true.mpr ⟨J.str u, hmem,
            (beqAtom_eq_true_iff (show hashableJ (J.str u) = true from rfl)).mpr rfl⟩
        simp [this] at h2
      · rintro ⟨h1, h2⟩
        refine ⟨h1, ?_⟩
        have : seenMem seenL u = false := by
          rw [← Bool.not_eq_true]
          intro hc
          rcases List.any_eq_true.mp hc with ⟨j, hj, hbeq⟩
          exact h2 (((beqAtom_eq_true_iff (hh j hj)).mp hbeq) ▸ hj)
        simp [this]
  · intro cfg file urls net seenL ha hw hl hnr
    rw [show (main_run cfg file (Except.ok urls) net).1 =
      (main_run cfg file (Except.ok urls) net).1 from rfl]
    rw [main_run_spec cfg file urls net seenL ha hw hl]
    by_cases hie : (newPhotosList seenL (pyStrSet urls)).isEmpty = true
    · rw [if_pos hie]
      refine ⟨⟨0, [], none⟩, rfl, ?_⟩
      simp only [List.isEmpty_iff] at hie
      rw [hie]
    · rw [if_neg hie]
      obtain ⟨⟨n, hn⟩, hatt⟩ := deliverLoop_ok cfg net _ hnr
      rw [hn]
      simp only []
      by_cases hc : 0 < n
      · rw [if_pos hc]
        exact ⟨_, rfl, hatt⟩
      · rw [if_neg hc]
        exact ⟨_, rfl, hatt⟩

/-- Witness for C5: with seen set loaded from a file naming `a.jpg` and a
snapshot of `b.jpg`, `c.jpg` and `a.jpg` (with a duplicate), exactly
`b.jpg` and `c.jpg` are attempted, in lexicographic order. -/
theorem new_photos_delta_properties_witness :
    ((newPhotosList [J.str "a.jpg"] (pyStrSet ["c.jpg", "b.jpg", "a.jpg", "b.jpg"])).Nodup ∧
      List.Sorted strLe
        (newPhotosList [J.str "a.jpg"] (pyStrSet ["c.jpg", "b.jpg", "a.jpg", "b.jpg"])) ∧
      (∀ u, u ∈ newPhotosList [J.str "a.jpg"] (pyStrSet ["c.jpg", "b.jpg", "a.jpg", "b.jpg"]) ↔
        (u ∈ ["c.jpg", "b.jpg", "a.jpg", "b.jpg"] ∧ J.str u ∉ [J.str "a.jpg"]))) ∧
    (∃ s : MainSummary,
      (main_run ⟨some "http://album", some "https://hook", none⟩ (some "[\"a.jpg\"]")
        (Except.ok ["c.jpg", "b.jpg", "a.jpg", "b.jpg"])
        (fun _ => ⟨NetResult.resp 200 true, none, NetResult.resp 200 true,
          NetResult.resp 200 true⟩)).1 = Except.ok s ∧
      s.attempted = newPhotosList [J.str "a.jpg"]
        (pyStrSet ["c.jpg", "b.jpg", "a.jpg", "b.jpg"])) :=
  ⟨new_photos_delta_properties.1 [J.str "a.jpg"] ["c.jpg", "b.jpg", "a.jpg", "b.jpg"]
      (by decide),
    new_photos_delta_properties.2 _ _ _ _ [J.str "a.jpg"] rfl rfl (by rfl)
      (by decide)⟩

/-- C1: in a run with a non-empty delta whose deliveries all return, the
seen-state file is written iff the success count is positive, and what is
written is the entire current snapshot — not the successful subset and
not the old seen set union the successes; with zero successes nothing is
written (src/main.py lines 211-222). -/
theorem main_state_update_policy (cfg : Config) (file : Option String)
    (urls : List String) (net : String → CallEnv) (seenL : List J)
    (ha : truthy cfg.album_url = true) (hw : truthy cfg.slack_webhook = true)
    (hl : load_seen_photos file = Except.ok seenL)
    (hne : newPhotosList seenL (pyStrSet urls) ≠ [])
    (hnr : ∀ u ∈ newPhotosList seenL (pyStrSet urls),
      (post_to_slack cfg (net u) u).1 ≠ Except.error ()) :
    ∃ s : MainSummary, (main_run cfg file (Except.ok urls) net).1 = Except.ok s ∧
      (0 < s.successCount ↔ s.saved = some (pyStrSet urls)) ∧
      (0 < s.successCount ↔
        Op.writeStateFile (pyStrSet urls) ∈ (main_run cfg file (Except.ok urls) net).2) ∧
      (s.successCount = 0 → s.saved = none ∧
        ∀ x, Op.writeStateFile x ∉ (main_run cfg file (Except.ok urls) net).2) ∧
      (∀ x, s.saved = some x → x.toFinset = urls.toFinset) := by
  have hie : (newPhotosList seenL (pyStrSet urls)).isEmpty = false := by
    cases hL : newPhotosList seenL (pyStrSet urls) with
    | nil => exact absurd hL hne
    | cons a t => rfl
  obtain ⟨⟨n, hn⟩, hatt⟩ := deliverLoop_ok cfg net _ hnr
  rw [main_run_spec cfg file urls net seenL ha hw hl, hie]
  rw [if_neg (by decide : ¬ (false = true))]
  rw [hn]
  simp only []
  by_cases hc : 0 < n
  · rw [if_pos hc]
    refine ⟨⟨n, (deliverLoop cfg net (newPhotosList seenL (pyStrSet urls))).2.1,
      some (pyStrSet urls)⟩, rfl, ?_, ?_, ?_, ?_⟩
    · simp [hc]
    · simp only [hc, true_iff]
      exact List.mem_append.mpr (Or.inr (by simp))
    · intro h0
      have h0n : n = 0 := h0
      omega
    · intro x hx
      simp only [Option.some.injEq] at hx
      rw [← hx]
      exact toFinset_pyStrSet urls
  · rw [if_neg hc]
    refine ⟨⟨n, (deliverLoop cfg net (newPhotosList seenL (pyStrSet urls))).2.1,
      none⟩, rfl, ?_, ?_, ?_, ?_⟩
    · simp [hc]
    · simp only [hc, false_iff]
      intro hmem
      simp only [List.mem_cons] at hmem
      rcases hmem with h | h | h
      · exact Op.noConfusion h
      · exact Op.noConfusion h
      · exact deliverLoop_no_write cfg net _ _ h
    · intro _
      refine ⟨rfl, ?_⟩
      intro x hmem
      simp only [List.mem_cons] at hmem
      rcases hmem with h | h | h
      · exact Op.noConfusion h
      · exact Op.noConfusion h
      · exact deliverLoop_no_write cfg net _ _ h
    · intro x hx
      exact absurd hx (by simp)

/-- Witness for C1, the spec's Scenario C: empty seen set, snapshot
`a.jpg` and `b.jpg`, `a.jpg` delivers via the webhook and `b.jpg` fails
both tiers; the run reports one success and persists the full snapshot,
`b.jpg` included. -/
theorem main_state_update_policy_witness :
    (∃ s : MainSummary,
      (main_run ⟨some "http://album", some "https://hook", none⟩ none
        (Except.ok ["b.jpg", "a.jpg"])
        (fun u => if u = "a.jpg"
          then ⟨NetResult.resp 200 true, none, NetResult.resp 200 true,
            NetResult.resp 200 true⟩
          else ⟨NetResult.resp 200 true, none, NetResult.resp 200 true,
            NetResult.resp 500 true⟩)).1 = Except.ok s ∧
      (0 < s.successCount ↔ s.saved = some (pyStrSet ["b.jpg", "a.jpg"])) ∧
      (0 < s.successCount ↔
        Op.writeStateFile (pyStrSet ["b.jpg", "a.jpg"]) ∈
          (main_run ⟨some "http://album", some "https://hook", none⟩ none
            (Except.ok ["b.jpg", "a.jpg"])
            (fun u => if u = "a.jpg"
              then ⟨NetResult.resp 200 true, none, NetResult.resp 200 true,
                NetResult.resp 200 true⟩
              else ⟨NetResult.resp 200 true, none, NetResult.resp 200 true,
                NetResult.resp 500 true⟩)).2) ∧
      (s.successCount = 0 → s.saved = none ∧
        ∀ x, Op.writeStateFile x ∉
          (main_run ⟨some "http://album", some "https://hook", none⟩ none
            (Except.ok ["b.jpg", "a.jpg"])
            (fun u => if u = "a.jpg"
              then ⟨NetResult.resp 200 true, none, NetResult.resp 200 true,
                NetResult.resp 200 true⟩
              else ⟨NetResult.resp 200 true, none, NetResult.resp 200 true,
                NetResult.resp 500 true⟩)).2) ∧
      (∀ x, s.saved = some x → x.toFinset = ["b.jpg", "a.jpg"].toFinset)) ∧
    (main_run ⟨some "http://album", some "https://hook", none⟩ none
      (Except.ok ["b.jpg", "a.jpg"])
      (fun u => if u = "a.jpg"
        then ⟨NetResult.resp 200 true, none, NetResult.resp 200 true,
          NetResult.resp 200 true⟩
        else ⟨NetResult.resp 200 true, none, NetResult.resp 200 true,
          NetResult.resp 500 true⟩)).1 =
      Except.ok ⟨1, ["a.jpg", "b.jpg"], some ["b.jpg", "a.jpg"]⟩ :=
  ⟨main_state_update_policy _ _ _ _ [] rfl rfl rfl (by decide)
      (by decide), by rfl⟩

/-- C7 counterexample: credential configured, download answers 200, and
the upload POST raises before the `os.unlink` at src/main.py line 115:
the temporary file is created but never deleted on this error exit, so
the run leaves the resource behind.  The claim asserts deletion on every
exit path of tier 1. -/
theorem temp_file_leak_counterexample :
    Op.createTempFile ∈ (post_to_slack ⟨some "http://album", some "https://hook", some "tok"⟩
      ⟨NetResult.resp 200 true, none, NetResult.raise, NetResult.resp 200 true⟩
      "u").2 ∧
    Op.deleteTempFile ∉ (post_to_slack ⟨some "http://album", some "https://hook", some "tok"⟩
      ⟨NetResult.resp 200 true, none, NetResult.raise, NetResult.resp 200 true⟩
      "u").2 := by
  decide

/-- C7 amended: whenever the temporary file has been created, it is
deleted if and only if the upload POST completes with an HTTP response —
success and upload-failure exits alike, since the unlink at src/main.py
line 115 precedes the status check; an exception raised between the
file's creation and that unlink (such as a transport error during the
upload POST) leaves it behind. -/
theorem temp_file_cleanup_amended (cfg : Config) (call : CallEnv) (url : String)
    (hc : Op.createTempFile ∈ (post_to_slack cfg call url).2) :
    (Op.deleteTempFile ∈ (post_to_slack cfg call url).2 ↔
      call.upload ≠ NetResult.raise) := by
  by_cases ht : truthy cfg.slack_api_token = true
  · cases hd : call.download with
    | raise =>
      rw [post_to_slack_download_raise url ht hd] at hc
      rcases webhookFallback_ops_sub _ _ _ _ _ hc with h | ⟨t, h⟩ <;> simp at h
    | resp st b =>
      by_cases hst : st = 200
      · subst hst
        cases hup : call.upload with
        | raise =>
          rw [post_to_slack_upload_raise url ht hd hup]
          constructor
          · intro hdel
            rcases webhookFallback_ops_sub _ _ _ _ _ hdel with h | ⟨t, h⟩ <;> simp at h
          · intro hne
            exact absurd rfl hne
        | resp ust uok =>
          constructor
          · intro _ h
            exact NetResult.noConfusion h
          · intro _
            by_cases hok : ust = 200 ∧ uok = true
            · obtain ⟨rfl, hok2⟩ := hok
              rw [post_to_slack_upload_ok url ht hd hup hok2]
              simp
            · rw [post_to_slack_upload_resp url ht hd hup hok]
              exact webhookFallback_acc_mem _ _ _ _ Op.deleteTempFile (by simp)
      · rw [post_to_slack_download_bad url ht hd hst] at hc
        simp at hc
  · rw [post_to_slack_no_token call url (by simpa using ht)] at hc
    rcases webhookFallback_ops_sub _ _ _ _ _ hc with h | ⟨t, h⟩ <;> simp at h

/-- Witness for the amended C7: a run whose upload answers 500 creates
the temporary file and, because the upload completed with a response,
deletes it. -/
theorem temp_file_cleanup_amended_witness :
    Op.deleteTempFile ∈ (post_to_slack ⟨some "http://album", some "https://hook", some "tok"⟩
      ⟨NetResult.resp 200 true, none, NetResult.resp 500 true, NetResult.resp 200 true⟩
      "u").2 :=
  (temp_file_cleanup_amended _ _ _ (by decide)).mpr (by decide)

/-- C9: `post_to_slack` never touches the persisted seen-state file — its
trace holds no read or write of it — and in a full run every state-file
write is the final operation of the trace, after the whole delivery loop
(src/main.py lines 45-154 and 218-219). -/
theorem dispatcher_state_frame :
    (∀ (cfg : Config) (call : CallEnv) (url : String),
      ∀ op ∈ (post_to_slack cfg call url).2, isStateOp op = false) ∧
    (∀ (cfg : Config) (file : Option String) (scrape : Except Unit (List String))
        (net : String → CallEnv) (x : List String),
      Op.writeStateFile x ∈ (main_run cfg file scrape net).2 →
      (main_run cfg file scrape net).2.getLast? = some (Op.writeStateFile x)) := by
  refine ⟨post_to_slack_ops_no_state, ?_⟩
  intro cfg file scrape net x hmem
  rcases main_run_trace_shape cfg file scrape net with h | ⟨pre, w, heq, hpre⟩
  · exact absurd rfl (h _ hmem x)
  · rw [heq] at hmem ⊢
    rcases List.mem_append.mp hmem with h | h
    · exact absurd rfl (hpre _ h x)
    · simp only [List.mem_singleton, Op.writeStateFile.injEq] at h
      subst h
      simp

/-- Witness for C9: in a concrete delivering run the only state-file
write is the last trace entry, and a dispatcher call emits no state
operation. -/
theorem dispatcher_state_frame_witness :
    isStateOp (Op.httpPostWebhook webhookHeader) = false ∧
    (main_run ⟨some "http://album", some "https://hook", none⟩ none
      (Except.ok ["a.jpg"])
      (fun _ => ⟨NetResult.resp 200 true, none, NetResult.resp 200 true,
        NetResult.resp 200 true⟩)).2.getLast? =
      some (Op.writeStateFile ["a.jpg"]) :=
  ⟨dispatcher_state_frame.1 ⟨some "http://album", some "https://hook", none⟩
      ⟨NetResult.resp 200 true, none, NetResult.resp 200 true, NetResult.resp 200 true⟩
      "a.jpg" (Op.httpPostWebhook webhookHeader) (by decide),
    dispatcher_state_frame.2 ⟨some "http://album", some "https://hook", none⟩ none
      (Except.ok ["a.jpg"])
      (fun _ => ⟨NetResult.resp 200 true, none, NetResult.resp 200 true,
        NetResult.resp 200 true⟩) ["a.jpg"] (by decide)⟩
